import Mathlib

/-
Shallow embedding of the warp-jira-agent orchestrator core
(cmd/poll.go, cmd/comment.go, cmd/root.go).

The Go code's effects on the world are modelled by explicit state passing
over a `World` record: the set of existing workspace directories (directory
existence IS the dedup claim), the set of created files, the git worktrees
created so far, and the list of issue keys for which the external agent
process was launched.  External failure modes that the code branches on
(mkdir failing for a reason other than "already exists", os.Create failing,
the git worktree command failing because the on-disk clone is missing) are
injected as explicit boolean/setwise parameters, so every branch of the Go
functions is reachable in the model.
-/

namespace WarpJiraAgent

/-- An issue as observed from the tracker: a stable unique key and a summary.
The opaque rich-document body is never inspected by the core, so it is not
modelled. Mirrors the fields of models.IssueScheme that poll.go reads. -/
structure Issue where
  key : String
  summary : String
deriving Repr, DecidableEq

/-- A configured repository: source URL (expected owner/name form) and the
branch worktrees are based on.  Mirrors the Repository struct of poll.go. -/
structure Repository where
  url : String
  branch : String
deriving Repr, DecidableEq

/-- The repos.yaml configuration: an ordered list of repositories.
Mirrors the ReposConfig struct of poll.go. -/
structure ReposConfig where
  repositories : List Repository
deriving Repr, DecidableEq

/-- Observable events of a poll-side run: structured log lines emitted by
handleIssue and pollForNewIssues, and the spawn of a runAgent goroutine. -/
inductive Event where
  | logDebugAlreadyHandled (key : String)
  | logErrorMkdirFailed (key : String)
  | logInfoProcessing (key : String)
  | spawnAgent (key : String)
  | logErrorSearchFailed
deriving Repr, DecidableEq

/-- A record of one created git worktree: the issue key of the owning
workspace, the repository name, the new branch checked out, and the base
branch it was created from. -/
structure Worktree where
  issueKey : String
  repoName : String
  branchName : String
  baseBranch : String
deriving Repr, DecidableEq

/-- The filesystem/process state the orchestrator mutates. `dirs` holds the
paths of existing workspace directories (under workspaces/), `files` the
paths of created regular files, `worktrees` the git worktrees created, and
`dispatched` the issue keys for which the external agent process was
launched. -/
structure World where
  dirs : List String
  files : List String
  worktrees : List Worktree
  dispatched : List String
deriving Repr, DecidableEq

/-- The initial world: nothing created yet. -/
def emptyWorld : World := ⟨[], [], [], []⟩

/-- Error returned by handleIssue when os.Mkdir fails for a reason other
than the directory already existing. -/
inductive HandleErr where
  | mkdirFailed
deriving Repr, DecidableEq

/-- The path of the workspace directory for an issue key:
filepath.Join("workspaces", key). -/
def workspacePath (key : String) : String := "workspaces/" ++ key

/-- handleIssue from poll.go: attempt the exclusive creation (os.Mkdir) of
the per-issue workspace directory.  If the directory already exists, log at
debug level and return nil.  If mkdir fails for another reason (injected
here as `mkdirFault`), log an error and return the error.  Otherwise the
directory is created, an info line is logged and runAgent is spawned in a
goroutine (recorded as a `spawnAgent` event). -/
def handleIssue (issue : Issue) (mkdirFault : Bool) (w : World) :
    World × Except HandleErr Unit × List Event :=
  if workspacePath issue.key ∈ w.dirs then
    (w, .ok (), [.logDebugAlreadyHandled issue.key])
  else if mkdirFault then
    (w, .error .mkdirFailed, [.logErrorMkdirFailed issue.key])
  else
    ({ w with dirs := workspacePath issue.key :: w.dirs }, .ok (),
      [.logInfoProcessing issue.key, .spawnAgent issue.key])

/-- Run a sequence of handleIssue calls (each an issue together with an
injected mkdir fault flag), threading the world and collecting all events. -/
def runSeq (calls : List (Issue × Bool)) (w : World) : World × List Event :=
  match calls with
  | [] => (w, [])
  | (i, f) :: rest =>
      let r := handleIssue i f w
      let r' := runSeq rest r.1
      (r'.1, r.2.2 ++ r'.2)

/-- How many times a runAgent goroutine was spawned for the given key in an
event trace. -/
def countSpawn (k : String) (evs : List Event) : Nat :=
  (evs.filter (fun e => e = Event.spawnAgent k)).length

theorem handleIssue_dirs_mono (issue : Issue) (f : Bool) (w : World)
    (p : String) (h : p ∈ w.dirs) : p ∈ (handleIssue issue f w).1.dirs := by
  unfold handleIssue
  split
  · exact h
  · split
    · exact h
    · exact List.mem_cons_of_mem _ h

theorem handleIssue_spawn_inserts (issue : Issue) (f : Bool) (w : World)
    (k : String) (h : 0 < countSpawn k (handleIssue issue f w).2.2) :
    workspacePath k ∈ (handleIssue issue f w).1.dirs ∧
      workspacePath k ∉ w.dirs := by
  unfold handleIssue at *
  split at h
  · simp [countSpawn, List.filter] at h
  · split at h
    · simp [countSpawn, List.filter] at h
    · rename_i hmem hf
      simp only [countSpawn, List.filter] at h
      by_cases hk : issue.key = k
      · subst hk
        exact ⟨by simp [handleIssue, hmem, hf], hmem⟩
      · exfalso
        have : (Event.logInfoProcessing issue.key = Event.spawnAgent k) = False := by
          simp
        simp [this, hk] at h

theorem handleIssue_no_spawn_of_mem (issue : Issue) (f : Bool) (w : World)
    (k : String) (h : workspacePath k ∈ w.dirs) :
    countSpawn k (handleIssue issue f w).2.2 = 0 := by
  by_cases hmem : workspacePath issue.key ∈ w.dirs
  · simp [handleIssue, hmem, countSpawn]
  · have hk : issue.key ≠ k := fun he => hmem (he ▸ h)
    cases f <;> simp [handleIssue, hmem, countSpawn, hk]

theorem handleIssue_spawn_le_one (issue : Issue) (f : Bool) (w : World)
    (k : String) : countSpawn k (handleIssue issue f w).2.2 ≤ 1 := by
  by_cases hmem : workspacePath issue.key ∈ w.dirs
  · simp [handleIssue, hmem, countSpawn]
  · by_cases hk : issue.key = k
    · subst hk
      cases f <;> simp [handleIssue, hmem, countSpawn]
    · cases f <;> simp [handleIssue, hmem, countSpawn, hk]

theorem runSeq_spawn_bound (calls : List (Issue × Bool)) (w : World)
    (k : String) :
    (workspacePath k ∈ w.dirs → countSpawn k (runSeq calls w).2 = 0) ∧
      (workspacePath k ∉ w.dirs → countSpawn k (runSeq calls w).2 ≤ 1) := by
  induction calls generalizing w with
  | nil => simp [runSeq, countSpawn]
  | cons c rest ih =>
      obtain ⟨i, f⟩ := c
      have hsplit : countSpawn k (runSeq ((i, f) :: rest) w).2 =
          countSpawn k (handleIssue i f w).2.2 +
            countSpawn k (runSeq rest (handleIssue i f w).1).2 := by
        simp [runSeq, countSpawn, List.filter_append]
      constructor
      · intro hmem
        rw [hsplit, handleIssue_no_spawn_of_mem i f w k hmem]
        have := (ih (handleIssue i f w).1).1
          (handleIssue_dirs_mono i f w _ hmem)
        simpa using this
      · intro hnm
        rw [hsplit]
        have ha := handleIssue_spawn_le_one i f w k
        by_cases hz : countSpawn k (handleIssue i f w).2.2 = 0
        · by_cases hm : workspacePath k ∈ (handleIssue i f w).1.dirs
          · have hb := (ih (handleIssue i f w).1).1 hm
            omega
          · have hb := (ih (handleIssue i f w).1).2 hm
            omega
        · have hpos : 0 < countSpawn k (handleIssue i f w).2.2 :=
            Nat.pos_of_ne_zero hz
          obtain ⟨hm, _⟩ := handleIssue_spawn_inserts i f w k hpos
          have hb := (ih (handleIssue i f w).1).1 hm
          omega

/-- C1: across any sequence of handleIssue calls starting from a world in
which the issue key's workspace does not yet exist, at most one call
creates the workspace directory and spawns the agent (at most one
spawnAgent event for that key); and whenever the workspace directory
already exists, a handleIssue call for that key leaves the world unchanged,
returns success (nil), logs only the debug "already handled" line — no
error log — and does not spawn the agent again. -/
theorem handleIssue_at_most_once (calls : List (Issue × Bool)) (w : World)
    (k : String) (h : workspacePath k ∉ w.dirs) :
    countSpawn k (runSeq calls w).2 ≤ 1 ∧
      ∀ (issue : Issue) (f : Bool) (w' : World),
        issue.key = k → workspacePath k ∈ w'.dirs →
          handleIssue issue f w' =
            (w', .ok (), [.logDebugAlreadyHandled k]) := by
  refine ⟨(runSeq_spawn_bound calls w k).2 h, ?_⟩
  intro issue f w' hk hmem
  subst hk
  simp [handleIssue, hmem]

/-- Witness for C1 at a concrete input: two attempts for the key "PROJ-1";
the first spawns the agent, the second observes the directory and is
silent. -/
theorem handleIssue_at_most_once_witness :
    workspacePath "PROJ-1" ∉ emptyWorld.dirs ∧
      countSpawn "PROJ-1"
        (runSeq [(⟨"PROJ-1", "s"⟩, false), (⟨"PROJ-1", "s"⟩, false)]
          emptyWorld).2 ≤ 1 := by
  have h : workspacePath "PROJ-1" ∉ emptyWorld.dirs := by
    simp [emptyWorld]
  exact ⟨h, (handleIssue_at_most_once
    [(⟨"PROJ-1", "s"⟩, false), (⟨"PROJ-1", "s"⟩, false)] emptyWorld
    "PROJ-1" h).1⟩

/-- One response of the search endpoint, as consumed by one SearchJQL call
in the loop of searchIssues: either a page of issues together with the next
page token (empty string = end of results), or a query failure. The model
feeds searchIssues the stream of responses the server would return, in
order. -/
inductive PageResponse where
  | page (issues : List Issue) (nextPageToken : String)
  | fetchError
deriving Repr, DecidableEq

/-- The ways searchIssues can return a non-nil error: the SearchJQL call
failed, or the per-issue callback returned an error (which searchIssues
propagates). `starved` is a model artifact marking that the response
stream ran out while the loop wanted another page; no claim exercises it. -/
inductive SearchFail (ε : Type) where
  | fetch
  | callback (e : ε)
  | starved
deriving Repr, DecidableEq

/-- The inner loop of searchIssues over one page: invoke the callback on
each issue in order, stopping at (and returning) the first error. Returns
the final callback state, the keys of the issues the callback was invoked
on, in order, and the error if any. -/
def runPageCallbacks {σ ε : Type} (cb : Issue → σ → σ × Except ε Unit) :
    List Issue → σ → σ × List String × Option ε
  | [], s => (s, [], none)
  | i :: is, s =>
      match cb i s with
      | (s', Except.ok ()) =>
          let r := runPageCallbacks cb is s'
          (r.1, i.key :: r.2.1, r.2.2)
      | (s', Except.error e) => (s', [i.key], some e)

/-- searchIssues from poll.go: fetch pages in a loop; a fetch error is
returned immediately (after logging); each page's issues are passed to the
callback synchronously and a callback error is returned immediately; an
empty next-page token breaks the loop, a non-empty one continues with the
next fetch. The response stream stands in for the server; each loop
iteration consumes its head. -/
def searchIssues {σ ε : Type} (cb : Issue → σ → σ × Except ε Unit) :
    List PageResponse → σ → σ × List String × Except (SearchFail ε) Unit
  | [], s => (s, [], Except.error .starved)
  | .fetchError :: _, s => (s, [], Except.error .fetch)
  | .page issues tok :: rest, s =>
      match runPageCallbacks cb issues s with
      | (s', ks, some e) => (s', ks, Except.error (.callback e))
      | (s', ks, none) =>
          if tok = "" then (s', ks, Except.ok ())
          else
            let r := searchIssues cb rest s'
            (r.1, ks ++ r.2.1, r.2.2)

/-- One tick of pollForNewIssues: run searchIssues; when it returns an
error, log "failed to search issues" and continue (the error is not
propagated further). -/
def pollTick {σ ε : Type} (cb : Issue → σ → σ × Except ε Unit)
    (responses : List PageResponse) (s : σ) : σ × List String × List Event :=
  match searchIssues cb responses s with
  | (s', ks, Except.ok ()) => (s', ks, [])
  | (s', ks, Except.error _) => (s', ks, [.logErrorSearchFailed])

/-- The state reached after invoking the callback on each issue in order,
ignoring results. -/
def foldCb {σ ε : Type} (cb : Issue → σ → σ × Except ε Unit) :
    List Issue → σ → σ
  | [], s => s
  | i :: is, s => foldCb cb is (cb i s).1

theorem foldCb_append {σ ε : Type} (cb : Issue → σ → σ × Except ε Unit)
    (as bs : List Issue) (s : σ) :
    foldCb cb (as ++ bs) s = foldCb cb bs (foldCb cb as s) := by
  induction as generalizing s with
  | nil => simp [foldCb]
  | cons a as ih => simp [foldCb, ih]

theorem runPageCallbacks_ok {σ ε : Type} (cb : Issue → σ → σ × Except ε Unit)
    (hcb : ∀ i s, (cb i s).2 = Except.ok ()) (issues : List Issue) (s : σ) :
    runPageCallbacks cb issues s =
      (foldCb cb issues s, issues.map Issue.key, none) := by
  induction issues generalizing s with
  | nil => simp [runPageCallbacks, foldCb]
  | cons i is ih =>
      have h := hcb i s
      rcases hc : cb i s with ⟨s', r⟩
      rw [hc] at h
      simp only at h
      subst h
      simp [runPageCallbacks, hc, ih, foldCb]

/-- Helper turning an (issues, token) pair into a successful page
response. -/
def mkPage (p : List Issue × String) : PageResponse := .page p.1 p.2

/-- C6: within one tick, when every fetch succeeds and the callback never
errors, the drain requests successive pages while the cursor is non-empty
and terminates exactly at the first page whose next-page token is empty:
the issues of all those pages are handled in page order (the handled-key
list is the in-order concatenation of the pages), the final state is the
fold of the callback over exactly those issues, the result is success, and
any responses after the empty-cursor page are never requested (the result
does not depend on `rest`). In particular a page with a non-empty cursor is
never terminal: the drain continues into the following response. -/
theorem searchIssues_drains_all_pages {σ ε : Type}
    (cb : Issue → σ → σ × Except ε Unit)
    (hcb : ∀ i s, (cb i s).2 = Except.ok ())
    (ps : List (List Issue × String)) (lastIssues : List Issue)
    (rest : List PageResponse) (s : σ)
    (hps : ∀ p ∈ ps, p.2 ≠ "") :
    searchIssues cb ((ps ++ [(lastIssues, "")]).map mkPage ++ rest) s =
      (foldCb cb ((ps.map Prod.fst).flatten ++ lastIssues) s,
        ((ps.map Prod.fst).flatten ++ lastIssues).map Issue.key,
        Except.ok ()) := by
  induction ps generalizing s with
  | nil =>
      simp only [List.nil_append, List.map_cons, List.map_nil, mkPage,
        List.cons_append, List.nil_append, List.map_nil, List.flatten_nil]
      unfold searchIssues
      rw [runPageCallbacks_ok cb hcb]
      simp
  | cons p ps ih =>
      have hp : p.2 ≠ "" := hps p (List.mem_cons_self p ps)
      have hps' : ∀ q ∈ ps, q.2 ≠ "" := fun q hq =>
        hps q (List.mem_cons_of_mem p hq)
      simp only [List.cons_append, List.map_cons, mkPage]
      unfold searchIssues
      rw [runPageCallbacks_ok cb hcb]
      simp only [hp, if_neg, ite_false]
      rw [ih (foldCb cb p.1 s) hps']
      simp [foldCb_append, List.map_append]

/-- Witness for C6 at the concrete scenario of the spec: pages
["A-1","A-2"] (cursor "p2") then ["A-3"] (cursor ""), with a trailing
response that is never fetched; the callback counts invocations. -/
theorem searchIssues_drains_all_pages_witness :
    (∀ p ∈ [([Issue.mk "A-1" "a", Issue.mk "A-2" "b"], "p2")],
        Prod.snd p ≠ "") ∧
      searchIssues
        (fun (_ : Issue) (s : Nat) => (s + 1, (Except.ok () : Except Unit Unit)))
        (([([Issue.mk "A-1" "a", Issue.mk "A-2" "b"], "p2")] ++
            [([Issue.mk "A-3" "c"], "")]).map mkPage ++ [PageResponse.fetchError]) 0 =
        (3, ["A-1", "A-2", "A-3"], Except.ok ()) := by
  constructor
  · decide
  · rw [searchIssues_drains_all_pages
      (fun (_ : Issue) (s : Nat) => (s + 1, (Except.ok () : Except Unit Unit)))
      (fun _ _ => rfl)
      [([Issue.mk "A-1" "a", Issue.mk "A-2" "b"], "p2")] [Issue.mk "A-3" "c"]
      [PageResponse.fetchError] 0 (by decide)]
    rfl

/-- C7: when the first page succeeds with a non-empty cursor and the next
fetch fails, the drain for that tick ends with the fetch error; each issue
of page 1 was handled exactly once (the handled-key list is exactly the
page-1 keys, in order, with no repetition beyond their page-1 occurrences),
and the failing fetch itself mutated nothing: the final state is exactly
the fold of the callback over the page-1 issues. -/
theorem searchIssues_fetch_error_aborts_tick {σ ε : Type}
    (cb : Issue → σ → σ × Except ε Unit)
    (hcb : ∀ i s, (cb i s).2 = Except.ok ())
    (issues : List Issue) (tok : String) (rest : List PageResponse) (s : σ)
    (htok : tok ≠ "") :
    searchIssues cb (.page issues tok :: .fetchError :: rest) s =
      (foldCb cb issues s, issues.map Issue.key,
        Except.error SearchFail.fetch) := by
  unfold searchIssues
  rw [runPageCallbacks_ok cb hcb]
  simp [htok, searchIssues]

/-- Witness for C7 at a concrete input: the callback is handleIssue (with
no injected fault); page 1 claims "A-1" and "A-2", the page-2 fetch fails,
and the final world contains exactly the two page-1 workspaces with each
key handled once. -/
theorem searchIssues_fetch_error_aborts_tick_witness :
    (∀ (i : Issue) (w : World),
        (((handleIssue i false w).1, (handleIssue i false w).2.1) :
            World × Except HandleErr Unit).2 = Except.ok ()) ∧
      searchIssues
        (fun (i : Issue) (w : World) =>
          ((handleIssue i false w).1, (handleIssue i false w).2.1))
        [.page [Issue.mk "A-1" "a", Issue.mk "A-2" "b"] "p2", .fetchError] emptyWorld =
        (⟨["workspaces/A-2", "workspaces/A-1"], [], [], []⟩,
          ["A-1", "A-2"], Except.error SearchFail.fetch) := by
  have hcb : ∀ (i : Issue) (w : World),
      (((handleIssue i false w).1, (handleIssue i false w).2.1) :
          World × Except HandleErr Unit).2 = Except.ok () := by
    intro i w
    by_cases h : workspacePath i.key ∈ w.dirs <;> simp [handleIssue, h]
  refine ⟨hcb, ?_⟩
  rw [searchIssues_fetch_error_aborts_tick
    (fun (i : Issue) (w : World) =>
      ((handleIssue i false w).1, (handleIssue i false w).2.1))
    hcb [Issue.mk "A-1" "a", Issue.mk "A-2" "b"] "p2" [] emptyWorld (by decide)]
  rfl

/-- C2 counterexample: with the real per-issue handler (handleIssue, with
an injected mkdir failure so the handler errors on the first issue), a
single-page drain of ["A-1", "A-2"] invokes the handler only on "A-1": the
handler failure stops the drain, and "A-2" is never handled — refuting the
claim that a handler failure never prevents other issues of the same tick
from being handled. -/
theorem searchIssues_callback_error_stops_cex :
    (searchIssues
        (fun (i : Issue) (w : World) =>
          ((handleIssue i true w).1, (handleIssue i true w).2.1))
        [.page [Issue.mk "A-1" "a", Issue.mk "A-2" "b"] ""]
        emptyWorld).2.1 = ["A-1"] ∧
      "A-2" ∉ (searchIssues
        (fun (i : Issue) (w : World) =>
          ((handleIssue i true w).1, (handleIssue i true w).2.1))
        [.page [Issue.mk "A-1" "a", Issue.mk "A-2" "b"] ""]
        emptyWorld).2.1 := by
  constructor
  · rfl
  · decide

theorem runPageCallbacks_append_ok {σ ε : Type}
    (cb : Issue → σ → σ × Except ε Unit) (pre xs : List Issue) (s : σ)
    (hpre : ∀ j ∈ pre, ∀ t, (cb j t).2 = Except.ok ()) :
    runPageCallbacks cb (pre ++ xs) s =
      ((runPageCallbacks cb xs (foldCb cb pre s)).1,
        pre.map Issue.key ++ (runPageCallbacks cb xs (foldCb cb pre s)).2.1,
        (runPageCallbacks cb xs (foldCb cb pre s)).2.2) := by
  induction pre generalizing s with
  | nil => simp [foldCb]
  | cons j js ih =>
      have h := hpre j (List.mem_cons_self j js) s
      rcases hc : cb j s with ⟨s', r⟩
      rw [hc] at h
      simp only at h
      subst h
      have hjs : ∀ q ∈ js, ∀ t, (cb q t).2 = Except.ok () := fun q hq =>
        hpre q (List.mem_cons_of_mem j hq)
      simp [runPageCallbacks, hc, ih s' hjs, foldCb]

/-- C2 amended: when the per-issue handler fails on an issue of a page, the
drain stops there for that tick: searchIssues returns the handler's error
immediately, the issues after the failing one — on the same page and on all
later pages — are not handled, and the poll tick logs the failure via its
"failed to search issues" error line (the tick as a whole continues: the
next tick polls again). The handler was invoked, in page order, exactly on
the issues up to and including the failing one. -/
theorem pollTick_callback_error_aborts_drain {σ ε : Type}
    (cb : Issue → σ → σ × Except ε Unit) (pre post : List Issue) (i : Issue)
    (tok : String) (rest : List PageResponse) (s : σ) (e : ε)
    (hpre : ∀ j ∈ pre, ∀ t, (cb j t).2 = Except.ok ())
    (hfail : (cb i (foldCb cb pre s)).2 = Except.error e) :
    pollTick cb (.page (pre ++ i :: post) tok :: rest) s =
      ((cb i (foldCb cb pre s)).1, pre.map Issue.key ++ [i.key],
        [Event.logErrorSearchFailed]) := by
  rcases hc : cb i (foldCb cb pre s) with ⟨s', r⟩
  rw [hc] at hfail
  simp only at hfail
  subst hfail
  unfold pollTick searchIssues
  rw [runPageCallbacks_append_ok cb pre (i :: post) s hpre]
  simp [runPageCallbacks, hc]

/-- Witness for the amended C2 at a concrete input: page ["A-1", "A-2",
"A-3"], handler failing on "A-2"; the drain handles "A-1" and "A-2" only
and the tick logs the search failure. -/
theorem pollTick_callback_error_aborts_drain_witness :
    (∀ j ∈ [Issue.mk "A-1" "a"], ∀ t : Nat,
        ((fun (i : Issue) (s : Nat) =>
          if i.key = "A-2" then (s, (Except.error () : Except Unit Unit))
          else (s + 1, Except.ok ())) j t).2 = Except.ok ()) ∧
      pollTick
        (fun (i : Issue) (s : Nat) =>
          if i.key = "A-2" then (s, (Except.error () : Except Unit Unit))
          else (s + 1, Except.ok ()))
        [.page [Issue.mk "A-1" "a", Issue.mk "A-2" "b", Issue.mk "A-3" "c"]
          "p2"] 0 =
        (1, ["A-1", "A-2"], [Event.logErrorSearchFailed]) := by
  constructor
  · intro j hj t
    fin_cases hj
    simp
  · rw [show [Issue.mk "A-1" "a", Issue.mk "A-2" "b", Issue.mk "A-3" "c"] =
        [Issue.mk "A-1" "a"] ++ Issue.mk "A-2" "b" :: [Issue.mk "A-3" "c"]
      from rfl]
    rw [pollTick_callback_error_aborts_drain
      (fun (i : Issue) (s : Nat) =>
        if i.key = "A-2" then (s, (Except.error () : Except Unit Unit))
        else (s + 1, Except.ok ()))
      [Issue.mk "A-1" "a"] [Issue.mk "A-3" "c"] (Issue.mk "A-2" "b")
      "p2" [] 0 ()
      (by intro j hj t; fin_cases hj; simp)
      (by simp [foldCb])]
    rfl

/-- Split a character list at its first '/': the part before and the part
after, or none when no '/' occurs. -/
def splitFirstSlash : List Char → Option (List Char × List Char)
  | [] => none
  | c :: rest =>
      if c = '/' then some ([], rest)
      else
        match splitFirstSlash rest with
        | none => none
        | some (a, b) => some (c :: a, b)

/-- strings.SplitN(s, "/", 2) from Go: split at the first "/" into at most
two parts; a string without "/" yields a one-element list. -/
def splitN2OnSlash (s : String) : List String :=
  match splitFirstSlash s.data with
  | none => [s]
  | some (a, b) => [String.mk a, String.mk b]

/-- Error result of createWorktree: the URL is not of the owner/name form,
or the git worktree command failed. -/
inductive WtErr where
  | invalidURL (url : String)
  | gitFailed (repoName : String)
deriving Repr, DecidableEq

/-- createWorktree from poll.go: split the repository URL at the first "/"
and fail if that does not give exactly two parts; otherwise the second part
is the repository name, the branch is "warp/" ++ issueKey ++ "-resolve",
and git worktree add -b <branch> <workspace>/<repoName> <repo.branch> is
run inside repos/<repoName>. The external git invocation is modelled as
succeeding iff the repository's on-disk clone exists (`repoName ∈ clones`)
— the failure mode the code is exposed to when the pre-existing clone is
missing; on success the created worktree (with its branch and base branch)
is recorded in the world. -/
def createWorktree (issueKey : String) (repo : Repository)
    (clones : List String) (w : World) : World × Except WtErr Unit :=
  match splitN2OnSlash repo.url with
  | [_, repoName] =>
      let branchName := "warp/" ++ issueKey ++ "-resolve"
      if repoName ∈ clones then
        ({ w with worktrees :=
            ⟨issueKey, repoName, branchName, repo.branch⟩ :: w.worktrees },
          Except.ok ())
      else (w, Except.error (.gitFailed repoName))
  | _ => (w, Except.error (.invalidURL repo.url))

/-- The loop body of setupRepositoryWorktrees: create a worktree for each
repository in configuration order, stopping at the first failure and
wrapping the error with the failing repository's URL. -/
def setupWorktreesList (issueKey : String) (clones : List String) :
    List Repository → World → World × Except (String × WtErr) Unit
  | [], w => (w, Except.ok ())
  | r :: rs, w =>
      match createWorktree issueKey r clones w with
      | (w', Except.ok ()) => setupWorktreesList issueKey clones rs w'
      | (w', Except.error e) => (w', Except.error (r.url, e))

/-- setupRepositoryWorktrees from poll.go: with no repositories configured
this is a logged no-op returning nil; otherwise worktrees are created in
configuration order, the first failure aborting with the repository URL
attached. -/
def setupRepositoryWorktrees (issueKey : String) (repos : ReposConfig)
    (clones : List String) (w : World) :
    World × Except (String × WtErr) Unit :=
  setupWorktreesList issueKey clones repos.repositories w

/-- The distinct terminal outcomes of one runAgent execution, matching the
return points of runAgent in poll.go. -/
inductive AgentOutcome where
  | logCreateFailed
  | worktreeSetupFailed (repoURL : String) (e : WtErr)
  | agentFailed
  | completed
deriving Repr, DecidableEq

/-- runAgent from poll.go, as a state transition: (a) create (truncate) the
output.log file inside the workspace (os.Create, with an injected fault
flag; on failure log and return); (b) set up the repository worktrees (on
failure log with repository identity and return — no dispatch); (c) marshal
the issue to JSON (pure data, modelled as always succeeding) and build the
prompt; (d) launch the external agent process in the workspace (recorded in
`dispatched`); (e) the process runs to completion or fails (injected fault
flag), each outcome logged. The workspace directory itself is never removed
on any path. -/
def runAgent (workspaceDir : String) (issue : Issue) (repos : ReposConfig)
    (clones : List String) (createLogFault : Bool) (agentRunFault : Bool)
    (w : World) : World × AgentOutcome :=
  if createLogFault then (w, .logCreateFailed)
  else
    let w1 := { w with files := (workspaceDir ++ "/output.log") :: w.files }
    match setupRepositoryWorktrees issue.key repos clones w1 with
    | (w2, Except.error (url, e)) => (w2, .worktreeSetupFailed url e)
    | (w2, Except.ok ()) =>
        let w3 := { w2 with dispatched := issue.key :: w2.dispatched }
        if agentRunFault then (w3, .agentFailed) else (w3, .completed)

/-- The repos.yaml file as seen at startup: absent, or present with the
outcome of yaml.Unmarshal on its contents. yaml.Unmarshal into ReposConfig
performs no validation of the URL shape — any string is accepted as `url` —
so `present (Except.ok c)` ranges over every ReposConfig value, including
ones whose URLs lack the owner/name form. -/
inductive ReposYamlFile where
  | missing
  | present (parsed : Except String ReposConfig)

/-- loadReposConfig from poll.go: a missing repos.yaml is valid and yields
the empty configuration (worktree setup will be skipped); a file that fails
YAML parsing is an error; a parsed configuration is returned as-is, with no
further validation. -/
def loadReposConfig : ReposYamlFile → Except String ReposConfig
  | .missing => Except.ok ⟨[]⟩
  | .present (Except.error e) =>
      Except.error ("failed to parse repos.yaml: " ++ e)
  | .present (Except.ok c) => Except.ok c

/-- The startup sequence of the poll command (RunE in poll.go): the label
must be non-empty and the repository configuration must load; any error
here is returned from RunE, which makes the process exit non-zero before
the polling loop starts. On success polling begins with the loaded
configuration. -/
def pollStartup (label : String) (yaml : ReposYamlFile) :
    Except String ReposConfig :=
  if label = "" then Except.error "label is required"
  else loadReposConfig yaml

theorem createWorktree_except_indep (k : String) (r : Repository)
    (clones : List String) (w w' : World) :
    (createWorktree k r clones w).2 = (createWorktree k r clones w').2 := by
  unfold createWorktree
  rcases splitN2OnSlash r.url with _ | ⟨a, _ | ⟨b, _ | _⟩⟩ <;>
    first
      | rfl
      | (by_cases hb : b ∈ clones <;> simp [hb])

theorem createWorktree_preserves (k : String) (r : Repository)
    (clones : List String) (w : World) :
    (createWorktree k r clones w).1.dirs = w.dirs ∧
      (createWorktree k r clones w).1.files = w.files ∧
      (createWorktree k r clones w).1.dispatched = w.dispatched := by
  unfold createWorktree
  rcases splitN2OnSlash r.url with _ | ⟨a, _ | ⟨b, _ | _⟩⟩ <;>
    first
      | exact ⟨rfl, rfl, rfl⟩
      | (by_cases hb : b ∈ clones <;> simp [hb])

theorem setupWorktreesList_except_indep (k : String) (clones : List String)
    (rs : List Repository) (w w' : World) :
    (setupWorktreesList k clones rs w).2 =
      (setupWorktreesList k clones rs w').2 := by
  induction rs generalizing w w' with
  | nil => rfl
  | cons r rs ih =>
      unfold setupWorktreesList
      have h := createWorktree_except_indep k r clones w w'
      rcases hc : createWorktree k r clones w with ⟨w1, res⟩
      rcases hc' : createWorktree k r clones w' with ⟨w1', res'⟩
      rw [hc, hc'] at h
      simp only at h
      subst h
      rcases res with e | u
      · rfl
      · cases u
        simpa using ih w1 w1'

theorem setupWorktreesList_preserves (k : String) (clones : List String)
    (rs : List Repository) (w : World) :
    (setupWorktreesList k clones rs w).1.dirs = w.dirs ∧
      (setupWorktreesList k clones rs w).1.files = w.files ∧
      (setupWorktreesList k clones rs w).1.dispatched = w.dispatched := by
  induction rs generalizing w with
  | nil => exact ⟨rfl, rfl, rfl⟩
  | cons r rs ih =>
      unfold setupWorktreesList
      have hp := createWorktree_preserves k r clones w
      rcases hc : createWorktree k r clones w with ⟨w1, res⟩
      rw [hc] at hp
      simp only at hp
      rcases res with e | u
      · exact hp
      · cases u
        have hr := ih w1
        simp only
        exact ⟨hr.1.trans hp.1, hr.2.1.trans hp.2.1, hr.2.2.trans hp.2.2⟩

/-- C3 counterexample: for the repository warpdotdev/warp-server and issue
key PROJ-1, the worktree is created on branch "warp/PROJ-1-resolve" (based
on the configured branch "main"), which is not the claimed
"agent/PROJ-1-resolve". -/
theorem createWorktree_branch_cex :
    (createWorktree "PROJ-1" ⟨"warpdotdev/warp-server", "main"⟩
        ["warp-server"] emptyWorld).1.worktrees =
      [⟨"PROJ-1", "warp-server", "warp/PROJ-1-resolve", "main"⟩] ∧
      "warp/PROJ-1-resolve" ≠ "agent/PROJ-1-resolve" := by
  exact ⟨by rfl, by decide⟩

/-- C3 amended: for every configured repository and issue key, a
successfully created worktree is checked out to the new branch named
exactly "warp/" ++ key ++ "-resolve" (not "agent/..."), based on the
repository's configured source branch. -/
theorem createWorktree_branch_name (issueKey : String) (repo : Repository)
    (clones : List String) (w : World)
    (hok : (createWorktree issueKey repo clones w).2 = Except.ok ()) :
    ∃ repoName,
      (createWorktree issueKey repo clones w).1.worktrees =
        ⟨issueKey, repoName, "warp/" ++ issueKey ++ "-resolve",
          repo.branch⟩ :: w.worktrees := by
  unfold createWorktree at hok ⊢
  rcases hsplit : splitN2OnSlash repo.url with _ | ⟨a, _ | ⟨b, _ | _⟩⟩
  · rw [hsplit] at hok
    simp at hok
  · rw [hsplit] at hok
    simp at hok
  · by_cases hb : b ∈ clones
    · exact ⟨b, by simp [hb]⟩
    · rw [hsplit] at hok
      simp [hb] at hok
  · rw [hsplit] at hok
    simp at hok

/-- Witness for the amended C3 at a concrete input. -/
theorem createWorktree_branch_name_witness :
    (createWorktree "PROJ-1" ⟨"warpdotdev/warp-server", "main"⟩
        ["warp-server"] emptyWorld).2 = Except.ok () ∧
      ∃ repoName,
        (createWorktree "PROJ-1" ⟨"warpdotdev/warp-server", "main"⟩
            ["warp-server"] emptyWorld).1.worktrees =
          ⟨"PROJ-1", repoName, "warp/" ++ "PROJ-1" ++ "-resolve",
            "main"⟩ :: emptyWorld.worktrees :=
  ⟨by rfl, createWorktree_branch_name "PROJ-1"
    ⟨"warpdotdev/warp-server", "main"⟩ ["warp-server"] emptyWorld (by rfl)⟩

/-- C4: when worktree provisioning fails for a claimed issue (for any
reason — in particular when a configured repository's on-disk clone is
missing), runAgent returns at the setup-failure point: the agent process is
not dispatched (the dispatched list is unchanged), the workspace directory
is left in place, and a subsequent handleIssue call for the same key
observes the existing directory and returns nil with only the debug
"already handled" log — AlreadyClaimed, not a retry. -/
theorem runAgent_setup_failure_no_dispatch (issue : Issue)
    (repos : ReposConfig) (clones : List String) (fault : Bool) (w : World)
    (url : String) (e : WtErr)
    (hdir : workspacePath issue.key ∈ w.dirs)
    (hfail : (setupRepositoryWorktrees issue.key repos clones emptyWorld).2 =
      Except.error (url, e)) :
    (runAgent (workspacePath issue.key) issue repos clones false fault w).2 =
        .worktreeSetupFailed url e ∧
      (runAgent (workspacePath issue.key) issue repos clones false fault
          w).1.dispatched = w.dispatched ∧
      workspacePath issue.key ∈
        (runAgent (workspacePath issue.key) issue repos clones false fault
          w).1.dirs ∧
      handleIssue issue false
          (runAgent (workspacePath issue.key) issue repos clones false fault
            w).1 =
        ((runAgent (workspacePath issue.key) issue repos clones false fault
            w).1, .ok (), [.logDebugAlreadyHandled issue.key]) := by
  have hind := setupWorktreesList_except_indep issue.key clones
    repos.repositories
    { w with files := (workspacePath issue.key ++ "/output.log") :: w.files }
    emptyWorld
  unfold setupRepositoryWorktrees at hfail
  have hpres := setupWorktreesList_preserves issue.key clones
    repos.repositories
    { w with files := (workspacePath issue.key ++ "/output.log") :: w.files }
  rcases hs : setupWorktreesList issue.key clones repos.repositories
      { w with files := (workspacePath issue.key ++ "/output.log") :: w.files }
    with ⟨w2, res⟩
  rw [hfail, hs] at hind
  rw [hs] at hpres
  simp only at hind hpres
  subst hind
  have hrun : runAgent (workspacePath issue.key) issue repos clones false
      fault w = (w2, .worktreeSetupFailed url e) := by
    simp only [runAgent, setupRepositoryWorktrees, Bool.false_eq_true,
      if_false, hs]
  rw [hrun]
  refine ⟨rfl, hpres.2.2, hpres.1 ▸ hdir, ?_⟩
  simp only
  have hmem : workspacePath issue.key ∈ w2.dirs := hpres.1 ▸ hdir
  simp [handleIssue, hmem]

/-- Witness for C4 at a concrete input: one configured repository
warpdotdev/warp-server whose on-disk clone is missing (no clones exist);
the claim for PROJ-1 is already on disk, provisioning fails, no dispatch
occurs, and a repeated handleIssue returns the silent AlreadyClaimed
path. -/
theorem runAgent_setup_failure_no_dispatch_witness :
    workspacePath "PROJ-1" ∈
        (World.mk [workspacePath "PROJ-1"] [] [] []).dirs ∧
      (setupRepositoryWorktrees "PROJ-1"
          ⟨[⟨"warpdotdev/warp-server", "main"⟩]⟩ [] emptyWorld).2 =
        Except.error ("warpdotdev/warp-server", .gitFailed "warp-server") ∧
      (runAgent (workspacePath "PROJ-1") ⟨"PROJ-1", "s"⟩
          ⟨[⟨"warpdotdev/warp-server", "main"⟩]⟩ [] false false
          (World.mk [workspacePath "PROJ-1"] [] [] [])).1.dispatched =
        (World.mk [workspacePath "PROJ-1"] [] [] []).dispatched := by
  refine ⟨by simp, by rfl, ?_⟩
  exact (runAgent_setup_failure_no_dispatch ⟨"PROJ-1", "s"⟩
    ⟨[⟨"warpdotdev/warp-server", "main"⟩]⟩ [] false
    (World.mk [workspacePath "PROJ-1"] [] [] [])
    "warpdotdev/warp-server" (.gitFailed "warp-server")
    (by simp) (by rfl)).2.1

/-- C8: with zero configured repositories, runAgent treats worktree
provisioning as a successful no-op and still dispatches the agent: the
issue key is appended to the dispatched list while no worktree is added to
the workspace, whether or not the agent process itself later fails. -/
theorem runAgent_no_repos_still_dispatches (ws : String) (issue : Issue)
    (clones : List String) (fault : Bool) (w : World) :
    (setupRepositoryWorktrees issue.key ⟨[]⟩ clones w).2 = Except.ok () ∧
      (runAgent ws issue ⟨[]⟩ clones false fault w).1.dispatched =
        issue.key :: w.dispatched ∧
      (runAgent ws issue ⟨[]⟩ clones false fault w).1.worktrees =
        w.worktrees := by
  refine ⟨rfl, ?_, ?_⟩ <;> cases fault <;> rfl

/-- C10: the per-issue output.log file is created inside the workspace
before worktree provisioning is attempted, so when provisioning fails the
abandoned workspace still contains the output.log file even though no
agent was dispatched — workspace setup is not atomic with respect to the
log file. -/
theorem runAgent_log_file_survives_setup_failure (issue : Issue)
    (repos : ReposConfig) (clones : List String) (fault : Bool) (w : World)
    (url : String) (e : WtErr)
    (hfail : (setupRepositoryWorktrees issue.key repos clones emptyWorld).2 =
      Except.error (url, e)) :
    (workspacePath issue.key ++ "/output.log") ∈
        (runAgent (workspacePath issue.key) issue repos clones false fault
          w).1.files ∧
      (runAgent (workspacePath issue.key) issue repos clones false fault
          w).1.dispatched = w.dispatched := by
  have hind := setupWorktreesList_except_indep issue.key clones
    repos.repositories
    { w with files := (workspacePath issue.key ++ "/output.log") :: w.files }
    emptyWorld
  unfold setupRepositoryWorktrees at hfail
  have hpres := setupWorktreesList_preserves issue.key clones
    repos.repositories
    { w with files := (workspacePath issue.key ++ "/output.log") :: w.files }
  rcases hs : setupWorktreesList issue.key clones repos.repositories
      { w with files := (workspacePath issue.key ++ "/output.log") :: w.files }
    with ⟨w2, res⟩
  rw [hfail, hs] at hind
  rw [hs] at hpres
  simp only at hind hpres
  subst hind
  have hrun : runAgent (workspacePath issue.key) issue repos clones false
      fault w = (w2, .worktreeSetupFailed url e) := by
    simp only [runAgent, setupRepositoryWorktrees, Bool.false_eq_true,
      if_false, hs]
  rw [hrun]
  exact ⟨hpres.2.1 ▸ List.mem_cons_self _ _, hpres.2.2⟩

/-- Witness for C10 at a concrete input: provisioning for PROJ-1 fails
because no clone exists, yet workspaces/PROJ-1/output.log is present in
the abandoned workspace and nothing was dispatched. -/
theorem runAgent_log_file_survives_setup_failure_witness :
    (setupRepositoryWorktrees "PROJ-1"
        ⟨[⟨"warpdotdev/warp-server", "main"⟩]⟩ [] emptyWorld).2 =
      Except.error ("warpdotdev/warp-server", .gitFailed "warp-server") ∧
      (workspacePath "PROJ-1" ++ "/output.log") ∈
        (runAgent (workspacePath "PROJ-1") ⟨"PROJ-1", "s"⟩
          ⟨[⟨"warpdotdev/warp-server", "main"⟩]⟩ [] false false
          emptyWorld).1.files := by
  refine ⟨by rfl, ?_⟩
  exact (runAgent_log_file_survives_setup_failure ⟨"PROJ-1", "s"⟩
    ⟨[⟨"warpdotdev/warp-server", "main"⟩]⟩ [] false emptyWorld
    "warpdotdev/warp-server" (.gitFailed "warp-server") (by rfl)).1

/-- C5 counterexample: a repos.yaml entry whose URL lacks the owner/name
form ("badurl") is perfectly parsable YAML, so startup succeeds and
polling begins with that configuration — the process does NOT exit with a
fatal startup error; the malformed URL is only rejected later, inside
createWorktree, at issue-handling time. -/
theorem loadReposConfig_malformed_url_not_fatal_cex :
    pollStartup "warp-assign"
        (.present (Except.ok ⟨[⟨"badurl", "main"⟩]⟩)) =
      Except.ok ⟨[⟨"badurl", "main"⟩]⟩ ∧
      (createWorktree "PROJ-1" ⟨"badurl", "main"⟩ ["badurl"]
          emptyWorld).2 = Except.error (.invalidURL "badurl") := by
  exact ⟨by rfl, by rfl⟩

/-- C5 amended: at startup, absence of repos.yaml is valid — the empty
configuration is loaded and worktree provisioning is a no-op — and a
repos.yaml that fails YAML parsing is a fatal startup error (RunE returns
it, so the process exits before polling); but an entry that parses as YAML
while its URL lacks the owner/name form is accepted at startup and only
fails later, in createWorktree at issue-handling time. -/
theorem loadReposConfig_startup_behavior (label e : String)
    (c : ReposConfig) (r : Repository)
    (hlabel : label ≠ "")
    (hbad : (splitN2OnSlash r.url).length ≠ 2) :
    pollStartup label .missing = Except.ok ⟨[]⟩ ∧
      (∀ (k : String) (clones : List String) (w : World),
        setupRepositoryWorktrees k ⟨[]⟩ clones w = (w, Except.ok ())) ∧
      pollStartup label (.present (Except.error e)) =
        Except.error ("failed to parse repos.yaml: " ++ e) ∧
      pollStartup label (.present (Except.ok c)) = Except.ok c ∧
      ∀ (k : String) (clones : List String) (w : World),
        (createWorktree k r clones w).2 =
          Except.error (.invalidURL r.url) := by
  refine ⟨by simp [pollStartup, loadReposConfig, hlabel],
    fun k clones w => rfl,
    by simp [pollStartup, loadReposConfig, hlabel],
    by simp [pollStartup, loadReposConfig, hlabel],
    fun k clones w => ?_⟩
  unfold createWorktree
  rcases hsplit : splitN2OnSlash r.url with _ | ⟨a, _ | ⟨b, _ | _⟩⟩
  · rfl
  · rfl
  · exact absurd (by rw [hsplit]; rfl) hbad
  · rfl

/-- Witness for the amended C5 at concrete inputs: the default label, a
parse failure "boom", a parsable config, and the malformed URL "badurl". -/
theorem loadReposConfig_startup_behavior_witness :
    ("warp-assign" : String) ≠ "" ∧
      (splitN2OnSlash "badurl").length ≠ 2 ∧
      pollStartup "warp-assign" .missing = Except.ok ⟨[]⟩ ∧
      pollStartup "warp-assign" (.present (Except.error "boom")) =
        Except.error ("failed to parse repos.yaml: " ++ "boom") ∧
      (createWorktree "PROJ-1" ⟨"badurl", "main"⟩ [] emptyWorld).2 =
        Except.error (.invalidURL "badurl") := by
  have h := loadReposConfig_startup_behavior "warp-assign" "boom"
    ⟨[]⟩ ⟨"badurl", "main"⟩ (by decide) (by decide)
  exact ⟨by decide, by decide, h.1, h.2.2.1, h.2.2.2.2 "PROJ-1" [] emptyWorld⟩

/-- A node of the rich-document (ADF) comment payload as built by
addComment in comment.go (models.CommentNodeScheme): a node type, the text
carried by the node (empty for structural nodes), and the child content.
The version field is fixed to 1 on the root and carries no text, so it is
not modelled. -/
inductive CommentNode where
  | node (type : String) (text : String) (content : List CommentNode)

mutual

/-- The flattened text content of a comment node: its own text followed by
that of its children, in order. -/
def flattenText : CommentNode → String
  | .node _ t cs => t ++ flattenListText cs

/-- The flattened text content of a list of comment nodes, in order. -/
def flattenListText : List CommentNode → String
  | [] => ""
  | c :: cs => flattenText c ++ flattenListText cs

end

/-- The payload built by addComment in comment.go: the fixed one-level
document→paragraph→text envelope, whose single text node carries the
comment text verbatim. -/
def addCommentPayload (commentText : String) : CommentNode :=
  .node "doc" ""
    [.node "paragraph" ""
      [.node "text" commentText []]]

/-- C9: for every input text, the comment payload is exactly the one-level
document→paragraph→text structure with the input carried verbatim by the
single text node, and flattening the payload's text content reconstructs
exactly the input; in particular input "done" flattens back to "done". -/
theorem addComment_payload_roundtrip (text : String) :
    addCommentPayload text =
        .node "doc" "" [.node "paragraph" "" [.node "text" text []]] ∧
      flattenText (addCommentPayload text) = text ∧
      flattenText (addCommentPayload "done") = "done" := by
  refine ⟨rfl, ?_, ?_⟩ <;>
    simp [addCommentPayload, flattenText, flattenListText]

end WarpJiraAgent
